import Mathlib

/-!
Shallow embedding of the news-aggregation pipeline core
(backend/src/services/contentService.js, backend/src/tasks/scheduler.js)
and proofs of the specification claims about it.

Modelling conventions:
* JavaScript strings are `String`; absent object fields are `Option String`
  with `none` for `undefined`.
* Async functions that may throw are `Except String α` (the error is the
  JS error message).  External collaborators (Apify scrape actor, OpenAI
  summarisation, Airtable batch write, Joi validation) are parameters of
  the model; an operation that may behave differently per call is indexed
  by its 1-based attempt number `Nat → Except String α`.
* Side effects relevant to the claims (log lines, backoff delays, cache
  invalidation patterns, whether a stage ran, whether the failure alert
  fired) are returned explicitly in trace structures.
-/

/-- JS template-literal interpolation of a possibly-undefined value:
`${x}` prints `"undefined"` when `x` is `undefined`. -/
def jsStr : Option String → String
  | some s => s
  | none => "undefined"

/-- JS `x || k` for a possibly-undefined string `x`: the empty string and
`undefined` are falsy, any other string is returned as is. -/
def jsOr (x : Option String) (k : String) : String :=
  match x with
  | some s => if s = "" then k else s
  | none => k

/-- Character-list version of: does `h` start with `n`? -/
def matchesAt : List Char → List Char → Bool
  | [], _ => true
  | _ :: _, [] => false
  | a :: as, b :: bs => a == b && matchesAt as bs

/-- Does `n` occur contiguously inside `h`? -/
def occursIn (n : List Char) : List Char → Bool
  | [] => n.isEmpty
  | b :: bs => matchesAt n (b :: bs) || occursIn n bs

/-- JS `hay.includes(needle)`. -/
def strContains (hay needle : String) : Bool :=
  occursIn needle.data hay.data

/-- JS `\w` word characters: ASCII letters, digits and underscore. -/
def wordChar (c : Char) : Bool := c.isAlphanum || c == '_'

/-- Collect the maximal runs of word characters (`cur` is the current
run, reversed). -/
def tokenRunsGo (cur : List Char) : List Char → List (List Char)
  | [] => if cur.isEmpty then [] else [cur.reverse]
  | c :: cs =>
    if wordChar c then tokenRunsGo (c :: cur) cs
    else if cur.isEmpty then tokenRunsGo [] cs
    else cur.reverse :: tokenRunsGo [] cs

/-- The token list produced by `text.match(/\b\w{4,}\b/g)`: maximal runs
of word characters, kept when at least 4 characters long. -/
def tokensOf (s : String) : List String :=
  ((tokenRunsGo [] s.data).map (fun cs => String.mk cs)).filter (fun t => 4 ≤ t.length)

/-- Numeric value of a digit string, as JS `ToUint32` would read it
(no overflow modelled; only used below a 2^32 bound). -/
def natOfDigits (s : String) : Nat :=
  s.data.foldl (fun n c => n * 10 + (c.toNat - '0'.toNat)) 0

/-- Whether a JS object key is an array-index key (canonical decimal
integer below `2^32 - 1`).  `Object.entries` lists such keys first, in
ascending numeric order, before all other keys in insertion order. -/
def isCanonicalIndex (s : String) : Bool :=
  match s.data with
  | [] => false
  | c :: cs =>
    (c :: cs).all (·.isDigit) && (s == "0" || c != '0') &&
      decide (natOfDigits s < 4294967295)

/-! ## Data model -/

/-- A scrape source configuration entry. -/
structure Source where
  name : String
  url : String
  actorId : String
  maxPages : Option Nat := none
  deriving Repr, DecidableEq

/-- A raw scrape record: the heterogeneous field names a source may use.
`none` models an absent (`undefined`) field. -/
structure RawArticle where
  title : Option String := none
  headline : Option String := none
  content : Option String := none
  description : Option String := none
  url : Option String := none
  link : Option String := none
  publishedAt : Option String := none
  date : Option String := none
  deriving Repr, DecidableEq

/-- The canonical article produced by `normalizeArticle`, with the
optional fields later added by enrichment. -/
structure Article where
  title : String
  content : String
  url : String
  publishedAt : String
  source : String
  category : String
  keywords : List String
  rawData : Option RawArticle := none
  summary : Option String := none
  processedAt : Option String := none
  processingError : Option String := none
  deriving Repr, DecidableEq

/-! ## Normalisation, categorisation, keyword extraction, deduplication -/

/-- The text both `categorizeArticle` and `extractKeywords` operate on:
`` `${article.title} ${article.content}`.toLowerCase() `` applied to the
raw record (whose fields may be `undefined`). -/
def rawText (raw : RawArticle) : String :=
  String.mk ((jsStr raw.title ++ " " ++ jsStr raw.content).data.map Char.toLower)

/-- The fixed category lexicon of `categorizeArticle`, in declaration
order. -/
def categoryLexicon : List (String × List String) :=
  [("technology", ["tech", "ai", "software", "digital", "computer"]),
   ("business", ["business", "finance", "economy", "market", "company"]),
   ("health", ["health", "medical", "doctor", "hospital", "treatment"]),
   ("sports", ["sports", "game", "team", "player", "match"]),
   ("politics", ["politics", "government", "election", "policy", "law"])]

/-- `categorizeArticle`: first category (in declared order) one of whose
keywords occurs in the lowercased title-plus-content, else `"general"`. -/
def categorizeArticle (raw : RawArticle) : String :=
  match categoryLexicon.find? (fun c => c.2.any (fun kw => strContains (rawText raw) kw)) with
  | some c => c.1
  | none => "general"

/-- One step of frequency counting: `frequency[word] = (frequency[word] || 0) + 1`
on an insertion-ordered association list. -/
def bump : List (String × Nat) → String → List (String × Nat)
  | [], k => [(k, 1)]
  | p :: ps, k => if p.1 == k then (p.1, p.2 + 1) :: ps else p :: bump ps k

/-- The frequency table of a token list, in key insertion order. -/
def freqOf (toks : List String) : List (String × Nat) :=
  toks.foldl bump []

/-- Insert `x` into `l` immediately before the first element `y` with
`before x y`; used to build the JS-observable orderings below. -/
def insertBy (before : α → α → Bool) (x : α) : List α → List α
  | [] => [x]
  | y :: ys => if before x y then x :: y :: ys else y :: insertBy before x ys

/-- Sort by repeated insertion; with a strict `before` test this is
stable, matching the ES2019 stable `Array.prototype.sort`. -/
def sortBy (before : α → α → Bool) (l : List α) : List α :=
  l.foldl (fun acc x => insertBy before x acc) []

/-- `Object.entries` order for a plain JS object: array-index keys in
ascending numeric order first, then all other keys in insertion order. -/
def entriesOrder (m : List (String × Nat)) : List (String × Nat) :=
  sortBy (fun p q => natOfDigits p.1 < natOfDigits q.1)
      (m.filter (fun p => isCanonicalIndex p.1))
    ++ m.filter (fun p => !isCanonicalIndex p.1)

/-- The stable descending-by-count sort `entries.sort(([,a],[,b]) => b - a)`. -/
def sortByCountDesc (l : List (String × Nat)) : List (String × Nat) :=
  sortBy (fun x y => y.2 < x.2) l

/-- `extractKeywords`: lowercase title-plus-content, word tokens of
length at least 4, frequency count, top 10 by descending count (stable
over the `Object.entries` order). -/
def extractKeywords (raw : RawArticle) : List String :=
  ((sortByCountDesc (entriesOrder (freqOf (tokensOf (rawText raw))))).take 10).map (·.1)

/-- `normalizeArticle(rawArticle, source)`; `now` is the ingestion
timestamp `new Date().toISOString()`. -/
def normalizeArticle (raw : RawArticle) (src : Source) (now : String) : Article :=
  { title := jsOr raw.title (jsOr raw.headline "")
  , content := jsOr raw.content (jsOr raw.description "")
  , url := jsOr raw.url (jsOr raw.link "")
  , publishedAt := jsOr raw.publishedAt (jsOr raw.date now)
  , source := src.name
  , category := categorizeArticle raw
  , keywords := extractKeywords raw
  , rawData := some raw }

/-- The dedupe identity key `` `${article.title}-${article.url}` ``. -/
def keyOf (a : Article) : String := a.title ++ "-" ++ a.url

/-- Membership test on the `seen` set of keys (JS `Set.has`). -/
def hasKey (seen : List String) (k : String) : Bool :=
  seen.any (fun s => s == k)

/-- The filter loop of `deduplicateArticles` with its `seen` set
(represented in insertion order, as a JS `Set` iterates). -/
def dedupeGo : List Article → List String → List Article
  | [], _ => []
  | a :: rest, seen =>
    if hasKey seen (keyOf a) then dedupeGo rest seen
    else a :: dedupeGo rest (seen ++ [keyOf a])

/-- `deduplicateArticles`. -/
def deduplicateArticles (l : List Article) : List Article :=
  dedupeGo l []

/-- The specification-level restatement of deduplication, written from
the spec sentence: iterate in input order and keep an article exactly
when no already-kept article has its identity key. -/
def dedupeSpecFirstOccurrence (l : List Article) : List Article :=
  l.foldl (fun acc a => if acc.any (fun b => keyOf b == keyOf a) then acc else acc ++ [a]) []

/-! ## RetryExecutor -/

/-- Decidable equality for `Except`, used to evaluate concrete pipeline
outcomes in the witnesses below. -/
def exceptDecEq [DecidableEq ε] [DecidableEq α] : DecidableEq (Except ε α)
  | .ok a, .ok b =>
    if h : a = b then .isTrue (by rw [h])
    else .isFalse (by intro hc; cases hc; exact h rfl)
  | .ok _, .error _ => .isFalse (by intro hc; cases hc)
  | .error _, .ok _ => .isFalse (by intro hc; cases hc)
  | .error e, .error f =>
    if h : e = f then .isTrue (by rw [h])
    else .isFalse (by intro hc; cases hc; exact h rfl)

instance [DecidableEq ε] [DecidableEq α] : DecidableEq (Except ε α) := exceptDecEq

/-- What one `executeWithRetry` invocation did: its outcome, how many
times it called the operation, the backoff delays it awaited (in order),
and the log lines it emitted. -/
structure RetryTrace (α : Type) where
  result : Except String α
  attempts : Nat
  delays : List Nat
  logs : List String
  deriving Repr, DecidableEq

/-- The retry loop from attempt number `attempt` with `fuel` further
attempts allowed after the current one (`fuel = maxRetries - attempt`).
`op i` is the outcome of the i-th call of `operation`; `d` is
`this.retryDelay` and `m` is `maxRetries` (used in log text). -/
def retryGo (op : Nat → Except String α) (context : String) (d m : Nat) :
    Nat → Nat → RetryTrace α
  | attempt, 0 =>
    match op attempt with
    | .ok a =>
      { result := .ok a, attempts := attempt, delays := []
      , logs := if 1 < attempt then [context ++ " - Succeeded on attempt " ++ toString attempt] else [] }
    | .error e =>
      { result := .error e, attempts := attempt, delays := []
      , logs := [context ++ " - Attempt " ++ toString attempt ++ "/" ++ toString m ++ " failed: " ++ e,
                 context ++ " - All " ++ toString m ++ " attempts failed"] }
  | attempt, fuel + 1 =>
    match op attempt with
    | .ok a =>
      { result := .ok a, attempts := attempt, delays := []
      , logs := if 1 < attempt then [context ++ " - Succeeded on attempt " ++ toString attempt] else [] }
    | .error e =>
      let t := retryGo op context d m (attempt + 1) fuel
      { result := t.result, attempts := t.attempts, delays := d * attempt :: t.delays
      , logs := (context ++ " - Attempt " ++ toString attempt ++ "/" ++ toString m ++ " failed: " ++ e) :: t.logs }

/-- `executeWithRetry(operation, context, maxRetries)` with backoff unit
`d`.  The JS loop makes zero calls and returns `undefined` when
`maxRetries = 0`; that never happens in the service (its `maxRetries`
config is `parseInt(...) || 3`, never 0), and the claim theorems below
all assume `1 ≤ maxRetries`. -/
def executeWithRetry (op : Nat → Except String α) (context : String) (d maxRetries : Nat) :
    RetryTrace α :=
  retryGo op context d maxRetries 1 (maxRetries - 1)

/-! ## Service context and external collaborators -/

/-- The `ContentService` configuration: `this.maxRetries`,
`this.retryDelay`, `this.batchSize`, plus the ingestion timestamp used
for `new Date().toISOString()`. -/
structure Ctx where
  maxRetries : Nat
  retryDelay : Nat
  batchSize : Nat
  now : String
  deriving Repr

/-- The external collaborators the pipeline calls, each indexed by the
1-based attempt number of the call: the Apify scrape
(`scrapeFromSource` network part), the OpenAI summary and keyword calls,
the Airtable batch write `airtableService.createArticles`, and the Joi
`validateArticle` check (a third-party validation library call that
either returns the value or throws). -/
structure Env where
  scrape : Source → Nat → Except String (List RawArticle)
  genSummary : String → Nat → Except String String
  extractKw : String → Nat → Except String (List String)
  createArticles : List Article → Nat → Except String (List Article)
  validate : Article → Except String Article

/-- `createBatches(array, batchSize)` recursion with explicit fuel
(`array.length` suffices when the batch size is positive). -/
def createBatchesGo (size : Nat) : Nat → List α → List (List α)
  | 0, _ => []
  | _, [] => []
  | fuel + 1, xs => xs.take size :: createBatchesGo size fuel (xs.drop size)

/-- `createBatches`.  The JS loop does not terminate when
`batchSize = 0`; the service always passes a positive size
(`parseInt(...) || 5` and the literal 10), and theorems assume it. -/
def createBatches (xs : List α) (size : Nat) : List (List α) :=
  if size = 0 then [] else createBatchesGo size xs.length xs

/-! ## Pipeline stages -/

/-- `scrapeFromSource(source)`: run the actor (external), then map
`normalizeArticle` over the dataset items. -/
def scrapeFromSource (ctx : Ctx) (env : Env) (s : Source) (attempt : Nat) :
    Except String (List Article) :=
  (env.scrape s attempt).map (fun items => items.map (fun it => normalizeArticle it s ctx.now))

/-- The source loop of `scrapeArticles`: each source is scraped through
`executeWithRetry`; the first exhausted-retries error aborts the loop
and propagates.  Also returns the names of the sources whose scrape was
attempted, in order. -/
def scrapeLoop (ctx : Ctx) (env : Env) : List Source → Except String (List Article) × List String
  | [] => (.ok [], [])
  | s :: rest =>
    match (executeWithRetry (scrapeFromSource ctx env s) ("Scraping " ++ s.name)
        ctx.retryDelay ctx.maxRetries).result with
    | .error e => (.error e, [s.name])
    | .ok arts =>
      let rest' := scrapeLoop ctx env rest
      (rest'.1.map (fun more => arts ++ more), s.name :: rest'.2)

/-- `scrapeArticles(sources)`: concatenate every source result in order,
then deduplicate globally. -/
def scrapeArticles (ctx : Ctx) (env : Env) (sources : List Source) :
    Except String (List Article) × List String :=
  ((scrapeLoop ctx env sources).1.map deduplicateArticles, (scrapeLoop ctx env sources).2)

/-- First-occurrence deduplication of the merged keyword list:
`[...new Set([...a, ...b])]` (a JS `Set` iterates in insertion order). -/
def setDedup (l : List String) : List String :=
  l.foldl (fun acc s => if acc.any (fun t => t == s) then acc else acc ++ [s]) []

/-- The catch branch of `processArticleWithOpenAI`: truncated-content
fallback summary plus the recorded error message. -/
def fallbackProcess (ctx : Ctx) (a : Article) (e : String) : Article :=
  { a with summary := some (a.content.take 200 ++ "...")
         , processedAt := some ctx.now
         , processingError := some e }

/-- `processArticleWithOpenAI(article)`: summary then keyword extraction,
each behind `executeWithRetry`; any escaped error is caught and turned
into the fallback article.  Total by construction: it never throws. -/
def processArticleWithOpenAI (ctx : Ctx) (env : Env) (a : Article) : Article :=
  match (executeWithRetry (env.genSummary a.content)
      ("OpenAI processing for article: " ++ a.title) ctx.retryDelay ctx.maxRetries).result with
  | .error e => fallbackProcess ctx a e
  | .ok s =>
    match (executeWithRetry (env.extractKw a.content)
        ("Keyword extraction for article: " ++ a.title) ctx.retryDelay ctx.maxRetries).result with
    | .error e => fallbackProcess ctx a e
    | .ok ks =>
      { a with summary := some s
             , keywords := setDedup (a.keywords ++ ks)
             , processedAt := some ctx.now }

/-- `processWithOpenAI(articles)`: fixed-size batches, concurrent
settle-all per batch, results pushed in order.  The rejected branch of
`Promise.allSettled` is unreachable because `processArticleWithOpenAI`
catches every error, so each batch contributes exactly its mapped
articles. -/
def processWithOpenAI (ctx : Ctx) (env : Env) (articles : List Article) : List Article :=
  ((createBatches articles ctx.batchSize).map
      (fun batch => batch.map (processArticleWithOpenAI ctx env))).flatten

/-- What one `saveToAirtable` call did: the saved articles it returns,
how many input articles failed validation, every Airtable store call it
made (the full batch passed to `createArticles`, with the number of
retry attempts), and the failed count it logs at completion
(`validArticles.length - savedArticles.length`, an `Int` since the store
reply length is not bounded by the model). -/
structure SaveTrace where
  savedArticles : List Article
  invalidCount : Nat
  storeBatchCalls : List (List Article × Nat)
  loggedFailedCount : Int
  deriving Repr, DecidableEq

/-- The batch loop of `saveToAirtable` (`i` is the 1-based batch number
used in the log label): each batch goes through `executeWithRetry`; a
batch whose write still fails is logged and skipped — the loop continues
with the next batch and never retries records individually. -/
def saveBatchesLoop (ctx : Ctx) (env : Env) : Nat → List (List Article) →
    List Article × List (List Article × Nat)
  | _, [] => ([], [])
  | i, b :: bs =>
    let t := executeWithRetry (env.createArticles b)
      ("Airtable batch save " ++ toString i) ctx.retryDelay ctx.maxRetries
    let rest := saveBatchesLoop ctx env (i + 1) bs
    match t.result with
    | .ok s => (s ++ rest.1, (b, t.attempts) :: rest.2)
    | .error _ => (rest.1, (b, t.attempts) :: rest.2)

/-- `saveToAirtable(articles)`: partition by validation, batch the valid
articles 10 at a time (the Airtable batch limit), run the batch loop,
log the completion counts, and return the saved articles. -/
def saveToAirtable (ctx : Ctx) (env : Env) (articles : List Article) : SaveTrace :=
  let valid := articles.filter (fun a => (env.validate a).toOption.isSome)
  let invalid := articles.filter (fun a => !(env.validate a).toOption.isSome)
  let run := saveBatchesLoop ctx env 1 (createBatches valid 10)
  { savedArticles := run.1
  , invalidCount := invalid.length
  , storeBatchCalls := run.2
  , loggedFailedCount := (valid.length : Int) - (run.1.length : Int) }

/-! ## Pipeline orchestration -/

/-- The `{scraped, processed, saved, duration}` stats object.  Wall-clock
duration is not modelled and is fixed at 0. -/
structure PipelineStats where
  scraped : Nat
  processed : Nat
  saved : Nat
  duration : Nat
  deriving Repr, DecidableEq

/-- The object `executeFullPipeline` resolves with. -/
structure PipelineReturn where
  success : Bool
  articles : List Article
  message : Option String := none
  stats : Option PipelineStats := none
  deriving Repr, DecidableEq

/-- One `executeFullPipeline` run with its observable effects: the
resolved value or the re-raised error, the names of the sources whose
scrape was attempted, whether the enrichment and persistence stages ran,
and the error passed to `sendFailureAlert` if it fired. -/
structure PipelineOutcome where
  result : Except String PipelineReturn
  scrapeAttempted : List String
  enrichRan : Bool
  persistRan : Bool
  alertSent : Option String
  deriving Repr, DecidableEq

/-- `executeFullPipeline(sources)`.  Only the scrape stage can throw
(enrichment settles every article and persistence catches batch
failures), so the catch block — alert plus re-raise — fires exactly on a
scrape error. -/
def executeFullPipeline (ctx : Ctx) (env : Env) (sources : List Source) : PipelineOutcome :=
  let names := (scrapeArticles ctx env sources).2
  match (scrapeArticles ctx env sources).1 with
  | .error e =>
    { result := .error e, scrapeAttempted := names
    , enrichRan := false, persistRan := false, alertSent := some e }
  | .ok rawArticles =>
    if rawArticles.length = 0 then
      { result := .ok { success := true, articles := [], message := some "No new articles found" }
      , scrapeAttempted := names, enrichRan := false, persistRan := false, alertSent := none }
    else
      let processed := processWithOpenAI ctx env rawArticles
      let tr := saveToAirtable ctx env processed
      { result := .ok { success := true, articles := tr.savedArticles
                      , stats := some { scraped := rawArticles.length
                                      , processed := processed.length
                                      , saved := tr.savedArticles.length
                                      , duration := 0 } }
      , scrapeAttempted := names, enrichRan := true, persistRan := true, alertSent := none }

/-- One `runDailyScrape` (scheduler) invocation: the pipeline result and
the cache key patterns whose invalidation was requested.  A pipeline
error propagates before any invalidation; on success all four resource
caches are invalidated. -/
structure DailyScrapeOutcome where
  result : Except String PipelineReturn
  invalidated : List String
  deriving Repr, DecidableEq

/-- `runDailyScrape()` of the scheduler, with the source list abstracted
as a parameter (`getScrapingSources` reads configuration). -/
def runDailyScrape (ctx : Ctx) (env : Env) (sources : List Source) : DailyScrapeOutcome :=
  let p := executeFullPipeline ctx env sources
  match p.result with
  | .error e => { result := .error e, invalidated := [] }
  | .ok r =>
    { result := .ok r
    , invalidated := ["articles:*", "analytics:*", "categories:*", "sources:*"] }

/-! ## Scheduler eligibility -/

/-- `shouldRunScheduler(enableScheduler, schedulerInstance, replicaId, nodeEnv)`
from `ProductionScheduler`: a pure function of the four environment
inputs (`none` is an unset variable). -/
def shouldRunScheduler (enableScheduler schedulerInstance replicaId : Option String)
    (nodeEnv : String) : Bool :=
  if enableScheduler = some "false" then false
  else if enableScheduler = some "true" then true
  else if schedulerInstance = some "true" then true
  else if replicaId ≠ none ∧ replicaId ≠ some "0" then false
  else if nodeEnv = "development" then true
  else false

/-! ## Helper lemmas: retry -/

theorem retryGo_all_fail (op : Nat → Except String α) (c : String) (d m : Nat)
    (err : Nat → String) :
    ∀ fuel attempt, (∀ i, attempt ≤ i → i ≤ attempt + fuel → op i = .error (err i)) →
      (retryGo op c d m attempt fuel).result = .error (err (attempt + fuel)) ∧
      (retryGo op c d m attempt fuel).attempts = attempt + fuel ∧
      (retryGo op c d m attempt fuel).delays
        = (List.range fuel).map (fun j => d * (attempt + j)) ∧
      (c ++ " - All " ++ toString m ++ " attempts failed") ∈ (retryGo op c d m attempt fuel).logs
  | 0, attempt, h => by
    have hop := h attempt le_rfl (by omega)
    simp [retryGo, hop]
  | fuel + 1, attempt, h => by
    have hop := h attempt le_rfl (by omega)
    have ih := retryGo_all_fail op c d m err fuel (attempt + 1)
      (fun i h1 h2 => h i (by omega) (by omega))
    have hadd : attempt + (fuel + 1) = attempt + 1 + fuel := by omega
    simp only [retryGo, hop, hadd]
    refine ⟨ih.1, ih.2.1, ?_, ?_⟩
    · rw [ih.2.2.1, List.range_succ_eq_map]
      simp only [List.map_cons, List.map_map, Nat.add_zero, List.cons.injEq, true_and]
      exact List.map_congr_left
        (fun j _ => by simp only [Function.comp, Nat.succ_eq_add_one]; ring)
    · exact List.mem_cons_of_mem _ ih.2.2.2

theorem retryGo_first_success (op : Nat → Except String α) (c : String) (d m : Nat) :
    ∀ fuel attempt k a, attempt ≤ k → k ≤ attempt + fuel →
      (∀ i, attempt ≤ i → i < k → ∃ e, op i = .error e) → op k = .ok a →
      (retryGo op c d m attempt fuel).result = .ok a ∧
      (retryGo op c d m attempt fuel).attempts = k ∧
      (retryGo op c d m attempt fuel).delays
        = (List.range (k - attempt)).map (fun j => d * (attempt + j))
  | 0, attempt, k, a, hle, hub, _hfail, hok => by
    have hk : k = attempt := by omega
    subst hk
    simp [retryGo, hok]
  | fuel + 1, attempt, k, a, hle, hub, hfail, hok => by
    by_cases hk : k = attempt
    · subst hk
      simp [retryGo, hok]
    · obtain ⟨e, he⟩ := hfail attempt le_rfl (by omega)
      have ih := retryGo_first_success op c d m fuel (attempt + 1) k a (by omega) (by omega)
        (fun i h1 h2 => hfail i (by omega) h2) hok
      simp only [retryGo, he]
      refine ⟨ih.1, ih.2.1, ?_⟩
      rw [ih.2.2]
      have hks : k - attempt = (k - (attempt + 1)) + 1 := by omega
      rw [hks, List.range_succ_eq_map]
      simp only [List.map_cons, List.map_map, Nat.add_zero, List.cons.injEq, true_and]
      exact List.map_congr_left
        (fun j _ => by simp only [Function.comp, Nat.succ_eq_add_one]; ring)

theorem retryGo_attempts_le (op : Nat → Except String α) (c : String) (d m : Nat) :
    ∀ fuel attempt, 1 ≤ attempt →
      1 ≤ (retryGo op c d m attempt fuel).attempts ∧
      (retryGo op c d m attempt fuel).attempts ≤ attempt + fuel
  | 0, attempt, h1 => by
    cases hop : op attempt <;> simp [retryGo, hop] <;> omega
  | fuel + 1, attempt, h1 => by
    cases hop : op attempt
    · have ih := retryGo_attempts_le op c d m fuel (attempt + 1) (by omega)
      simp only [retryGo, hop]
      exact ⟨ih.1, by omega⟩
    · simp [retryGo, hop]; omega

theorem executeWithRetry_all_fail (op : Nat → Except String α) (c : String) (d m : Nat)
    (err : Nat → String) (hm : 1 ≤ m)
    (h : ∀ i, 1 ≤ i → i ≤ m → op i = .error (err i)) :
    (executeWithRetry op c d m).result = .error (err m) ∧
    (executeWithRetry op c d m).attempts = m ∧
    (executeWithRetry op c d m).delays = (List.range (m - 1)).map (fun j => d * (1 + j)) ∧
    (c ++ " - All " ++ toString m ++ " attempts failed") ∈ (executeWithRetry op c d m).logs := by
  have hfm : 1 + (m - 1) = m := by omega
  have := retryGo_all_fail op c d m err (m - 1) 1 (fun i h1 h2 => h i h1 (by omega))
  rw [hfm] at this
  exact this

theorem executeWithRetry_first_success (op : Nat → Except String α) (c : String) (d m : Nat)
    (k : Nat) (a : α) (hk1 : 1 ≤ k) (hkm : k ≤ m)
    (hfail : ∀ i, 1 ≤ i → i < k → ∃ e, op i = .error e) (hok : op k = .ok a) :
    (executeWithRetry op c d m).result = .ok a ∧
    (executeWithRetry op c d m).attempts = k ∧
    (executeWithRetry op c d m).delays = (List.range (k - 1)).map (fun j => d * (1 + j)) := by
  exact retryGo_first_success op c d m (m - 1) 1 k a hk1 (by omega) hfail hok

theorem executeWithRetry_attempts (op : Nat → Except String α) (c : String) (d m : Nat)
    (hm : 1 ≤ m) :
    1 ≤ (executeWithRetry op c d m).attempts ∧ (executeWithRetry op c d m).attempts ≤ m := by
  have h := retryGo_attempts_le op c d m (m - 1) 1 le_rfl
  unfold executeWithRetry
  exact ⟨h.1, by omega⟩

theorem any_map_eq (l : List α) (f : α → β) (p : β → Bool) :
    (l.map f).any p = l.any (fun x => p (f x)) := by
  induction l <;> simp [*]

/-! ## Helper lemmas: deduplication -/

theorem dedupeGo_eq_foldl (l : List Article) :
    ∀ acc : List Article,
      l.foldl (fun acc a => if acc.any (fun b => keyOf b == keyOf a) then acc else acc ++ [a]) acc
        = acc ++ dedupeGo l (acc.map keyOf) := by
  induction l with
  | nil => intro acc; simp [dedupeGo]
  | cons a rest ih =>
    intro acc
    have hany : acc.any (fun b => keyOf b == keyOf a) = hasKey (acc.map keyOf) (keyOf a) := by
      rw [hasKey, any_map_eq]
    by_cases hc : hasKey (acc.map keyOf) (keyOf a) = true
    · simp only [List.foldl_cons, hany, hc, if_true, dedupeGo]
      exact ih acc
    · have hc' : hasKey (acc.map keyOf) (keyOf a) = false := by
        revert hc; cases hasKey (acc.map keyOf) (keyOf a) <;> simp
      simp only [List.foldl_cons, hany, hc', if_false, dedupeGo, Bool.false_eq_true]
      rw [ih (acc ++ [a])]
      simp [List.map_append]

theorem deduplicateArticles_eq_spec (l : List Article) :
    deduplicateArticles l = dedupeSpecFirstOccurrence l := by
  have := dedupeGo_eq_foldl l []
  simp only [List.nil_append, List.map_nil] at this
  rw [deduplicateArticles, dedupeSpecFirstOccurrence, this]

theorem hasKey_append_singleton (seen : List String) (x y : String) :
    hasKey (seen ++ [x]) y = (hasKey seen y || (y == x)) := by
  have hc : (x == y) = (y == x) := by
    by_cases h : x = y
    · subst h; rfl
    · have h1 : (x == y) = false := by simpa using h
      have h2 : (y == x) = false := by simpa using (Ne.symm h)
      rw [h1, h2]
  simp [hasKey, List.any_append, hc]

theorem dedupeGo_keys (l : List Article) :
    ∀ seen : List String,
      List.Pairwise (fun a b => keyOf a ≠ keyOf b) (dedupeGo l seen) ∧
      ∀ a ∈ dedupeGo l seen, hasKey seen (keyOf a) = false := by
  induction l with
  | nil => intro seen; simp [dedupeGo]
  | cons a rest ih =>
    intro seen
    by_cases hc : hasKey seen (keyOf a) = true
    · simp only [dedupeGo, hc, if_true]
      exact ih seen
    · have hc' : hasKey seen (keyOf a) = false := by
        revert hc; cases hasKey seen (keyOf a) <;> simp
      simp only [dedupeGo, hc', Bool.false_eq_true, if_false]
      have ihs := ih (seen ++ [keyOf a])
      constructor
      · refine List.pairwise_cons.mpr ⟨?_, ihs.1⟩
        intro b hb heq
        have := ihs.2 b hb
        rw [hasKey_append_singleton, heq] at this
        simp at this
      · intro b hb
        rcases List.mem_cons.mp hb with h | h
        · subst h; exact hc'
        · have := ihs.2 b h
          rw [hasKey_append_singleton] at this
          exact (Bool.or_eq_false_iff.mp this).1

theorem dedupeGo_sublist (l : List Article) :
    ∀ seen : List String, (dedupeGo l seen).Sublist l := by
  induction l with
  | nil => intro seen; simp [dedupeGo]
  | cons a rest ih =>
    intro seen
    by_cases hc : hasKey seen (keyOf a) = true
    · simp only [dedupeGo, hc, if_true]
      exact (ih seen).cons a
    · have hc' : hasKey seen (keyOf a) = false := by
        revert hc; cases hasKey seen (keyOf a) <;> simp
      simp only [dedupeGo, hc', Bool.false_eq_true, if_false]
      exact (ih (seen ++ [keyOf a])).cons₂ a

/-! ## Helper lemmas: batching and enrichment -/

theorem createBatchesGo_flatten (size : Nat) (hs : 1 ≤ size) :
    ∀ fuel (xs : List α), xs.length ≤ fuel → (createBatchesGo size fuel xs).flatten = xs
  | 0, xs, h => by
    have : xs = [] := List.eq_nil_of_length_eq_zero (by omega)
    subst this; rfl
  | fuel + 1, [], _ => rfl
  | fuel + 1, x :: xs, h => by
    have hd : (List.drop size (x :: xs)).length ≤ fuel := by
      simp only [List.length_drop, List.length_cons] at *
      omega
    have ih := createBatchesGo_flatten size hs fuel (List.drop size (x :: xs)) hd
    show (List.take size (x :: xs) :: createBatchesGo size fuel (List.drop size (x :: xs))).flatten
        = x :: xs
    rw [List.flatten_cons, ih]
    exact List.take_append_drop size (x :: xs)

theorem createBatches_flatten (xs : List α) (size : Nat) (hs : 1 ≤ size) :
    (createBatches xs size).flatten = xs := by
  rw [createBatches, if_neg (by omega)]
  exact createBatchesGo_flatten size hs xs.length xs le_rfl

theorem flatten_map_map (f : α → β) (L : List (List α)) :
    (L.map (fun batch => batch.map f)).flatten = L.flatten.map f := by
  induction L with
  | nil => rfl
  | cons b bs ih =>
    rw [List.map_cons, List.flatten_cons, List.flatten_cons, ih, List.map_append]

theorem processWithOpenAI_eq_map (ctx : Ctx) (env : Env) (articles : List Article)
    (hb : 1 ≤ ctx.batchSize) :
    processWithOpenAI ctx env articles = articles.map (processArticleWithOpenAI ctx env) := by
  rw [processWithOpenAI, flatten_map_map, createBatches_flatten _ _ hb]

theorem processArticle_all_fail (ctx : Ctx) (env : Env) (a : Article) (err : String → Nat → String)
    (hm : 1 ≤ ctx.maxRetries)
    (h : ∀ content i, 1 ≤ i → i ≤ ctx.maxRetries → env.genSummary content i
          = .error (err content i)) :
    processArticleWithOpenAI ctx env a = fallbackProcess ctx a (err a.content ctx.maxRetries) := by
  have hr := executeWithRetry_all_fail (env.genSummary a.content)
    ("OpenAI processing for article: " ++ a.title) ctx.retryDelay ctx.maxRetries
    (err a.content) hm (fun i h1 h2 => h a.content i h1 h2)
  rw [processArticleWithOpenAI, hr.1]

/-! ## Helper lemmas: frequency table and sorting (extractKeywords) -/

/-- The value stored under key `k` (JS `frequency[word] || 0`). -/
def getCount (m : List (String × Nat)) (k : String) : Nat :=
  ((m.find? (fun p => p.1 == k)).map (·.2)).getD 0

/-- Number of occurrences of `k` in a token list. -/
def countOf (k : String) (toks : List String) : Nat :=
  (toks.filter (fun t => t == k)).length

/-- The keys of a frequency table, in storage order. -/
def keysOf (m : List (String × Nat)) : List String := m.map (·.1)

theorem countOf_cons (k t : String) (ts : List String) :
    countOf k (t :: ts) = if t == k then countOf k ts + 1 else countOf k ts := by
  by_cases h : (t == k) = true
  · simp [countOf, List.filter_cons, h, Nat.add_comm]
  · have h' : (t == k) = false := by revert h; cases t == k <;> simp
    simp [countOf, List.filter_cons, h']


theorem find?_key_cons_neg (q : String × Nat) (m : List (String × Nat)) (k : String)
    (h : (q.1 == k) = false) :
    List.find? (fun p => p.1 == k) (q :: m) = List.find? (fun p => p.1 == k) m :=
  List.find?_cons_of_neg _ (by simp [h])

theorem find?_key_cons_pos (q : String × Nat) (m : List (String × Nat)) (k : String)
    (h : (q.1 == k) = true) :
    List.find? (fun p => p.1 == k) (q :: m) = some q :=
  List.find?_cons_of_pos _ h

theorem bump_getCount_same (m : List (String × Nat)) (k : String) :
    getCount (bump m k) k = getCount m k + 1 := by
  induction m with
  | nil => simp [bump, getCount]
  | cons p ps ih =>
    by_cases hpk : (p.1 == k) = true
    · rw [show bump (p :: ps) k = (p.1, p.2 + 1) :: ps from by simp [bump, hpk]]
      rw [getCount, getCount, find?_key_cons_pos (p.1, p.2 + 1) ps k hpk,
        find?_key_cons_pos p ps k hpk]
      rfl
    · have hpk' : (p.1 == k) = false := by revert hpk; cases p.1 == k <;> simp
      rw [show bump (p :: ps) k = p :: bump ps k from by simp [bump, hpk']]
      rw [getCount, getCount, find?_key_cons_neg _ _ _ hpk', find?_key_cons_neg _ _ _ hpk']
      exact ih

theorem bump_getCount_other (m : List (String × Nat)) (k k' : String) (hne : k' ≠ k) :
    getCount (bump m k) k' = getCount m k' := by
  induction m with
  | nil =>
    have h : (k == k') = false := by simpa using (Ne.symm hne)
    simp [bump, getCount, h]
  | cons p ps ih =>
    by_cases hpk : (p.1 == k) = true
    · have hp1 : p.1 = k := by simpa using hpk
      have hpk' : (p.1 == k') = false := by
        rw [hp1]; simpa using (Ne.symm hne)
      rw [show bump (p :: ps) k = (p.1, p.2 + 1) :: ps from by simp [bump, hpk]]
      rw [getCount, getCount, find?_key_cons_neg (p.1, p.2 + 1) ps k' hpk',
        find?_key_cons_neg p ps k' hpk']
    · have hpk0 : (p.1 == k) = false := by revert hpk; cases p.1 == k <;> simp
      rw [show bump (p :: ps) k = p :: bump ps k from by simp [bump, hpk0]]
      by_cases hq : (p.1 == k') = true
      · rw [getCount, getCount, find?_key_cons_pos _ _ _ hq, find?_key_cons_pos _ _ _ hq]
      · have hq0 : (p.1 == k') = false := by revert hq; cases p.1 == k' <;> simp
        rw [getCount, getCount, find?_key_cons_neg _ _ _ hq0, find?_key_cons_neg _ _ _ hq0]
        exact ih

theorem foldl_bump_getCount :
    ∀ (toks : List String) (m : List (String × Nat)) (k : String),
      getCount (toks.foldl bump m) k = getCount m k + countOf k toks
  | [], m, k => by simp [countOf]
  | t :: ts, m, k => by
    rw [List.foldl_cons, foldl_bump_getCount ts (bump m t) k, countOf_cons]
    by_cases h : (t == k) = true
    · have ht : t = k := by simpa using h
      subst ht
      rw [bump_getCount_same, if_pos h]
      omega
    · have h' : (t == k) = false := by revert h; cases t == k <;> simp
      have hne : k ≠ t := fun he => by simp [he] at h'
      rw [bump_getCount_other m t k hne, if_neg (by simp [h'])]

theorem bump_keys (m : List (String × Nat)) (k : String) :
    (k ∈ keysOf m ∧ keysOf (bump m k) = keysOf m) ∨
    (k ∉ keysOf m ∧ keysOf (bump m k) = keysOf m ++ [k]) := by
  induction m with
  | nil => right; simp [bump, keysOf]
  | cons p ps ih =>
    have hcons : keysOf (p :: ps) = p.1 :: keysOf ps := rfl
    by_cases hpk : (p.1 == k) = true
    · left
      have hp1 : p.1 = k := by simpa using hpk
      rw [show bump (p :: ps) k = (p.1, p.2 + 1) :: ps from by simp [bump, hpk]]
      constructor
      · rw [hcons, hp1]; exact List.mem_cons_self _ _
      · rfl
    · have hpk' : (p.1 == k) = false := by revert hpk; cases p.1 == k <;> simp
      have hne : p.1 ≠ k := fun he => by simp [he] at hpk'
      rw [show bump (p :: ps) k = p :: bump ps k from by simp [bump, hpk']]
      have hcons2 : keysOf (p :: bump ps k) = p.1 :: keysOf (bump ps k) := rfl
      rcases ih with ⟨hmem, heq⟩ | ⟨hmem, heq⟩
      · left
        rw [hcons, hcons2, heq]
        exact ⟨List.mem_cons_of_mem _ hmem, rfl⟩
      · right
        rw [hcons, hcons2, heq]
        constructor
        · intro hc
          rcases List.mem_cons.mp hc with h | h
          · exact hne h.symm
          · exact hmem h
        · rfl

theorem bump_keys_nodup (m : List (String × Nat)) (k : String) (h : (keysOf m).Nodup) :
    (keysOf (bump m k)).Nodup := by
  rcases bump_keys m k with ⟨_, heq⟩ | ⟨hmem, heq⟩
  · rwa [heq]
  · rw [heq]
    rw [List.nodup_append]
    exact ⟨h, List.nodup_singleton _, by simpa [List.disjoint_singleton] using hmem⟩

theorem foldl_bump_nodup :
    ∀ (toks : List String) (m : List (String × Nat)),
      (keysOf m).Nodup → (keysOf (toks.foldl bump m)).Nodup
  | [], _, h => h
  | t :: ts, m, h => foldl_bump_nodup ts (bump m t) (bump_keys_nodup m t h)

theorem entry_val (m : List (String × Nat)) (h : (keysOf m).Nodup) :
    ∀ p ∈ m, p.2 = getCount m p.1 := by
  induction m with
  | nil => intro p hp; cases hp
  | cons q qs ih =>
    have hcons : keysOf (q :: qs) = q.1 :: keysOf qs := rfl
    rw [hcons, List.nodup_cons] at h
    intro p hp
    rcases List.mem_cons.mp hp with h1 | h1
    · subst h1
      rw [getCount, find?_key_cons_pos p qs p.1 (by simp)]
      rfl
    · have hne : (q.1 == p.1) = false := by
        have : q.1 ≠ p.1 := by
          intro he
          exact h.1 (he ▸ List.mem_map_of_mem _ h1)
        simpa using this
      rw [getCount, find?_key_cons_neg q qs p.1 hne]
      exact ih h.2 p h1

theorem freq_entry_count (toks : List String) :
    ∀ p ∈ freqOf toks, p.2 = countOf p.1 toks := by
  intro p hp
  have hn : (keysOf (freqOf toks)).Nodup :=
    foldl_bump_nodup toks [] (by simp [keysOf])
  have hv := entry_val (freqOf toks) hn p hp
  rw [hv, freqOf, foldl_bump_getCount]
  simp [getCount]

theorem insertBy_perm (before : α → α → Bool) (x : α) (l : List α) :
    (insertBy before x l).Perm (x :: l) := by
  induction l with
  | nil => exact List.Perm.refl _
  | cons y ys ih =>
    by_cases hb : before x y = true
    · rw [show insertBy before x (y :: ys) = x :: y :: ys from by simp [insertBy, hb]]
    · have hb' : before x y = false := by revert hb; cases before x y <;> simp
      rw [show insertBy before x (y :: ys) = y :: insertBy before x ys from by
        simp [insertBy, hb']]
      exact (ih.cons y).trans (List.Perm.swap x y ys)

theorem sortBy_perm_aux (before : α → α → Bool) :
    ∀ (l acc : List α), (l.foldl (fun acc x => insertBy before x acc) acc).Perm (l ++ acc)
  | [], acc => by simp
  | x :: xs, acc => by
    rw [List.foldl_cons]
    have h1 := sortBy_perm_aux before xs (insertBy before x acc)
    have h2 : (xs ++ insertBy before x acc).Perm (xs ++ x :: acc) :=
      List.Perm.append_left xs (insertBy_perm before x acc)
    have h3 : (xs ++ x :: acc).Perm (x :: (xs ++ acc)) := List.perm_middle
    exact h1.trans (h2.trans h3)

theorem sortBy_perm (before : α → α → Bool) (l : List α) : (sortBy before l).Perm l := by
  have := sortBy_perm_aux before l []
  simpa [sortBy] using this

theorem insertBy_pairwise (before : α → α → Bool) (R : α → α → Prop)
    (hb : ∀ x y, before x y = true → R x y)
    (hnb : ∀ x y, before x y = false → R y x)
    (htr : ∀ a b c, R a b → R b c → R a c)
    (x : α) (l : List α) (hl : List.Pairwise R l) :
    List.Pairwise R (insertBy before x l) := by
  induction l with
  | nil => simp [insertBy]
  | cons y ys ih =>
    obtain ⟨hy, hys⟩ := List.pairwise_cons.mp hl
    by_cases hbx : before x y = true
    · rw [show insertBy before x (y :: ys) = x :: y :: ys from by simp [insertBy, hbx]]
      refine List.pairwise_cons.mpr ⟨?_, hl⟩
      intro z hz
      rcases List.mem_cons.mp hz with h | h
      · exact h ▸ hb x y hbx
      · exact htr x y z (hb x y hbx) (hy z h)
    · have hbx' : before x y = false := by revert hbx; cases before x y <;> simp
      rw [show insertBy before x (y :: ys) = y :: insertBy before x ys from by
        simp [insertBy, hbx']]
      refine List.pairwise_cons.mpr ⟨?_, ih hys⟩
      intro z hz
      have hz' : z ∈ x :: ys := (insertBy_perm before x ys).mem_iff.mp hz
      rcases List.mem_cons.mp hz' with h | h
      · exact h ▸ hnb x y hbx'
      · exact hy z h

theorem sortBy_pairwise (before : α → α → Bool) (R : α → α → Prop)
    (hb : ∀ x y, before x y = true → R x y)
    (hnb : ∀ x y, before x y = false → R y x)
    (htr : ∀ a b c, R a b → R b c → R a c)
    (l : List α) : List.Pairwise R (sortBy before l) := by
  suffices h : ∀ (l acc : List α), List.Pairwise R acc →
      List.Pairwise R (l.foldl (fun acc x => insertBy before x acc) acc) by
    exact h l [] List.Pairwise.nil
  intro l
  induction l with
  | nil => intro acc hacc; exact hacc
  | cons x xs ih =>
    intro acc hacc
    rw [List.foldl_cons]
    exact ih _ (insertBy_pairwise before R hb hnb htr x acc hacc)

theorem mem_entriesOrder (m : List (String × Nat)) (p : String × Nat)
    (hp : p ∈ entriesOrder m) : p ∈ m := by
  rcases List.mem_append.mp hp with h | h
  · exact List.mem_filter.mp
      ((sortBy_perm (fun p q => natOfDigits p.1 < natOfDigits q.1)
        (m.filter (fun p => isCanonicalIndex p.1))).mem_iff.mp h) |>.1
  · exact (List.mem_filter.mp h).1

theorem mem_sortByCountDesc (l : List (String × Nat)) (p : String × Nat)
    (hp : p ∈ sortByCountDesc l) : p ∈ l :=
  (sortBy_perm _ l).mem_iff.mp hp

theorem sortByCountDesc_sorted (l : List (String × Nat)) :
    List.Pairwise (fun p q : String × Nat => q.2 ≤ p.2) (sortByCountDesc l) := by
  refine sortBy_pairwise _ _ ?_ ?_ ?_ l
  · intro x y h
    have := of_decide_eq_true h
    omega
  · intro x y h
    have := of_decide_eq_false h
    omega
  · intro a b c h1 h2
    omega

theorem pairwise_take_drop {R : α → α → Prop} {l : List α} (h : List.Pairwise R l) (n : Nat) :
    ∀ x ∈ l.take n, ∀ y ∈ l.drop n, R x y := by
  have h2 : List.Pairwise R (l.take n ++ l.drop n) := by
    rwa [List.take_append_drop]
  exact (List.pairwise_append.mp h2).2.2

/-! ## Helper lemmas: scrape loop and persistence loop -/

theorem scrapeLoop_fail (ctx : Ctx) (env : Env) :
    ∀ (pre : List Source) (s : Source) (post : List Source) (e : String),
      (∀ s' ∈ pre, ∃ arts, (executeWithRetry (scrapeFromSource ctx env s')
          ("Scraping " ++ s'.name) ctx.retryDelay ctx.maxRetries).result = .ok arts) →
      (executeWithRetry (scrapeFromSource ctx env s) ("Scraping " ++ s.name)
          ctx.retryDelay ctx.maxRetries).result = .error e →
      scrapeLoop ctx env (pre ++ s :: post) = (.error e, pre.map (·.name) ++ [s.name])
  | [], s, post, e, _hpre, hs => by
    simp only [List.nil_append, List.map_nil]
    rw [show scrapeLoop ctx env (s :: post)
        = match (executeWithRetry (scrapeFromSource ctx env s) ("Scraping " ++ s.name)
            ctx.retryDelay ctx.maxRetries).result with
          | .error e => ((.error e : Except String (List Article)), [s.name])
          | .ok arts =>
            ((scrapeLoop ctx env post).1.map (fun more => arts ++ more),
              s.name :: (scrapeLoop ctx env post).2) from rfl]
    rw [hs]
  | p :: pre, s, post, e, hpre, hs => by
    obtain ⟨arts, hp⟩ := hpre p (List.mem_cons_self p pre)
    have ih := scrapeLoop_fail ctx env pre s post e
      (fun s' h => hpre s' (List.mem_cons_of_mem p h)) hs
    rw [show (p :: pre) ++ s :: post = p :: (pre ++ s :: post) from rfl]
    rw [show scrapeLoop ctx env (p :: (pre ++ s :: post))
        = match (executeWithRetry (scrapeFromSource ctx env p) ("Scraping " ++ p.name)
            ctx.retryDelay ctx.maxRetries).result with
          | .error e => ((.error e : Except String (List Article)), [p.name])
          | .ok arts =>
            ((scrapeLoop ctx env (pre ++ s :: post)).1.map (fun more => arts ++ more),
              p.name :: (scrapeLoop ctx env (pre ++ s :: post)).2) from rfl]
    rw [hp, ih]
    simp [Except.map]

theorem saveBatchesLoop_fail_head (ctx : Ctx) (env : Env) (i : Nat) (b : List Article)
    (bs : List (List Article)) (err : Nat → String) (hm : 1 ≤ ctx.maxRetries)
    (hfail : ∀ att, 1 ≤ att → att ≤ ctx.maxRetries →
      env.createArticles b att = .error (err att)) :
    saveBatchesLoop ctx env i (b :: bs)
      = ((saveBatchesLoop ctx env (i + 1) bs).1,
         (b, ctx.maxRetries) :: (saveBatchesLoop ctx env (i + 1) bs).2) := by
  have hr := executeWithRetry_all_fail (env.createArticles b)
    ("Airtable batch save " ++ toString i) ctx.retryDelay ctx.maxRetries err hm hfail
  rw [show saveBatchesLoop ctx env i (b :: bs)
      = (match (executeWithRetry (env.createArticles b)
          ("Airtable batch save " ++ toString i) ctx.retryDelay ctx.maxRetries).result with
        | .ok s => (s ++ (saveBatchesLoop ctx env (i + 1) bs).1,
            (b, (executeWithRetry (env.createArticles b)
              ("Airtable batch save " ++ toString i) ctx.retryDelay ctx.maxRetries).attempts)
              :: (saveBatchesLoop ctx env (i + 1) bs).2)
        | .error _ => ((saveBatchesLoop ctx env (i + 1) bs).1,
            (b, (executeWithRetry (env.createArticles b)
              ("Airtable batch save " ++ toString i) ctx.retryDelay ctx.maxRetries).attempts)
              :: (saveBatchesLoop ctx env (i + 1) bs).2)) from rfl]
  rw [hr.1, hr.2.1]

/-! ## Concrete fixtures for witnesses and counterexamples -/

/-- A source whose scrape succeeds in the concrete environments below. -/
def srcGood : Source := { name := "good", url := "http://good", actorId := "act" }

/-- A source whose scrape fails in the concrete environments below. -/
def srcBad : Source := { name := "bad", url := "http://bad", actorId := "act" }

/-- A concrete service configuration: the default
`maxRetries = 3`, some delay unit, `batchSize = 5`. -/
def ctx0 : Ctx := { maxRetries := 3, retryDelay := 10, batchSize := 5, now := "T0" }

/-- A minimal already-normalised article. -/
def artFix (t u : String) : Article :=
  { title := t, content := "c", url := u, publishedAt := "T0", source := "S"
  , category := "general", keywords := [] }

/-- Raw scenario items from the spec dedupe scenario. -/
def rawItemA : RawArticle := { title := some "A", url := some "u1" }
def rawItemA2 : RawArticle := { title := some "A", url := some "u1" }
def rawItemB : RawArticle := { title := some "B", url := some "u2" }

/-- Raw item whose tokens are one alphabetic and one numeric word. -/
def rawNum : RawArticle := { title := some "abcd 2024", content := some "" }

/-- Raw item with two alphabetic equal-frequency tokens. -/
def rawTie : RawArticle := { title := some "bbbb aaaa", content := some "" }

/-- Environment where every external call succeeds and scraping yields
nothing. -/
def envEmpty : Env :=
  { scrape := fun _ _ => .ok []
  , genSummary := fun _ _ => .ok "s"
  , extractKw := fun _ _ => .ok []
  , createArticles := fun b _ => .ok b
  , validate := fun a => .ok a }

/-- Environment where the Airtable batch write always throws. -/
def envSaveFail : Env :=
  { scrape := fun _ _ => .ok []
  , genSummary := fun _ _ => .ok "s"
  , extractKw := fun _ _ => .ok []
  , createArticles := fun _ _ => .error "batch failed"
  , validate := fun a => .ok a }

/-- Environment where the enrichment provider throws for every call. -/
def envProviderDown : Env :=
  { scrape := fun _ _ => .ok []
  , genSummary := fun _ _ => .error "OpenAI down"
  , extractKw := fun _ _ => .error "OpenAI down"
  , createArticles := fun b _ => .ok b
  , validate := fun a => .ok a }

/-- Environment where only the source named `good` scrapes successfully. -/
def envScrapeFail : Env :=
  { scrape := fun s att =>
      if s.name = "good" then .ok [] else .error ("scrape failed " ++ toString att)
  , genSummary := fun _ _ => .ok "s"
  , extractKw := fun _ _ => .ok []
  , createArticles := fun b _ => .ok b
  , validate := fun a => .ok a }

/-- Environment where scraping yields one raw item and every later stage
succeeds. -/
def envOne : Env :=
  { scrape := fun _ _ => .ok [rawItemB]
  , genSummary := fun _ _ => .ok "sum"
  , extractKw := fun _ _ => .ok ["keyw"]
  , createArticles := fun b _ => .ok b
  , validate := fun a => .ok a }

/-! ## Claim C3 -/

/-- C3: `deduplicateArticles` iterates in input order with identity key
`title-"-"-url`, keeps only the first occurrence of each key (it equals
the spec-level first-occurrence filter), preserves relative input order
(its output is a sublist of its input), and its output never contains
two articles sharing the same `(title, url)` pair; normalising then
deduplicating the scenario items `A/u1, A/u1, B/u2` yields exactly the
two articles titled `A` then `B`. -/
theorem C3_deduplicateArticles_contract :
    (∀ l : List Article, deduplicateArticles l = dedupeSpecFirstOccurrence l)
  ∧ (∀ l : List Article, (deduplicateArticles l).Sublist l)
  ∧ (∀ l : List Article, List.Pairwise
      (fun a b : Article => ¬(a.title = b.title ∧ a.url = b.url)) (deduplicateArticles l))
  ∧ ((deduplicateArticles
        ([rawItemA, rawItemA2, rawItemB].map (fun r => normalizeArticle r srcGood "T0"))).map
          (·.title) = ["A", "B"]) := by
  refine ⟨deduplicateArticles_eq_spec, fun l => dedupeGo_sublist l [], ?_, by decide⟩
  intro l
  have hp := (dedupeGo_keys l []).1
  refine hp.imp_of_mem ?_
  intro a b _ _ hne hc
  exact hne (by rw [keyOf, keyOf, hc.1, hc.2])

/-! ## Claim C4 -/

/-- C4: `shouldRunScheduler` is a pure function of its four inputs and
follows the precedence: explicit disable, then explicit enable, then
dedicated-instance flag, then non-zero replica index (disabled), then
the environment default (enabled exactly in development); in particular
the disable flag beats the dedicated-instance flag. -/
theorem C4_shouldRunScheduler_precedence :
    ∀ (e s r : Option String) (n : String),
      (e = some "false" → shouldRunScheduler e s r n = false)
    ∧ (e ≠ some "false" → e = some "true" → shouldRunScheduler e s r n = true)
    ∧ (e ≠ some "false" → e ≠ some "true" → s = some "true" →
        shouldRunScheduler e s r n = true)
    ∧ (e ≠ some "false" → e ≠ some "true" → s ≠ some "true" →
        r ≠ none → r ≠ some "0" → shouldRunScheduler e s r n = false)
    ∧ (e ≠ some "false" → e ≠ some "true" → s ≠ some "true" →
        (r = none ∨ r = some "0") → n = "development" →
        shouldRunScheduler e s r n = true)
    ∧ (e ≠ some "false" → e ≠ some "true" → s ≠ some "true" →
        (r = none ∨ r = some "0") → n ≠ "development" →
        shouldRunScheduler e s r n = false)
    ∧ (shouldRunScheduler (some "false") (some "true") r n = false) := by
  intro e s r n
  refine ⟨?_, ?_, ?_, ?_, ?_, ?_, rfl⟩
  · intro h1; simp [shouldRunScheduler, h1]
  · intro h1 h2; simp [shouldRunScheduler, h1, h2]
  · intro h1 h2 h3; simp [shouldRunScheduler, h1, h2, h3]
  · intro h1 h2 h3 h4 h5; simp [shouldRunScheduler, h1, h2, h3, h4, h5]
  · intro h1 h2 h3 h4 h5
    rcases h4 with h4 | h4 <;> simp [shouldRunScheduler, h1, h2, h3, h4, h5]
  · intro h1 h2 h3 h4 h5
    rcases h4 with h4 | h4 <;> simp [shouldRunScheduler, h1, h2, h3, h4, h5]

/-- Witness for C4 at a concrete input. -/
theorem C4_witness :
    shouldRunScheduler (some "false") (some "true") none "production" = false :=
  (C4_shouldRunScheduler_precedence (some "false") (some "true") none "production").1 rfl

/-! ## Claim C7 -/

/-- C7: `executeWithRetry` returns the result of the first successful
attempt, calls the operation at most `maxAttempts` times, waits
`delay * attemptNumber` between consecutive failed attempts (the delay
list of a run reaching attempt `k` is `[d*1, …, d*(k-1)]`), and after
`maxAttempts` consecutive failures re-raises the last error while
logging the exhaustion message tagged with the label. -/
theorem C7_executeWithRetry_contract (op : Nat → Except String α) (label : String)
    (d m : Nat) (hm : 1 ≤ m) :
    ((executeWithRetry op label d m).attempts ≤ m)
    ∧ (∀ k a, 1 ≤ k → k ≤ m →
        (∀ i, 1 ≤ i → i < k → ∃ e, op i = .error e) → op k = .ok a →
        (executeWithRetry op label d m).result = .ok a ∧
        (executeWithRetry op label d m).attempts = k ∧
        (executeWithRetry op label d m).delays
          = (List.range (k - 1)).map (fun j => d * (1 + j)))
    ∧ (∀ err : Nat → String, (∀ i, 1 ≤ i → i ≤ m → op i = .error (err i)) →
        (executeWithRetry op label d m).result = .error (err m) ∧
        (executeWithRetry op label d m).attempts = m ∧
        (executeWithRetry op label d m).delays
          = (List.range (m - 1)).map (fun j => d * (1 + j)) ∧
        (label ++ " - All " ++ toString m ++ " attempts failed")
          ∈ (executeWithRetry op label d m).logs) :=
  ⟨(executeWithRetry_attempts op label d m hm).2,
   fun k a hk1 hkm hf hok => executeWithRetry_first_success op label d m k a hk1 hkm hf hok,
   fun err hf => executeWithRetry_all_fail op label d m err hm hf⟩

/-- The operation used by the C7 witness: fails once, then succeeds. -/
def opFailOnce : Nat → Except String Nat :=
  fun i => if i = 1 then .error "e1" else .ok 42

/-- Witness for C7: with `maxAttempts = 3` and one initial failure, the
wrapper returns the attempt-2 result after a single backoff delay. -/
theorem C7_witness :
    (executeWithRetry opFailOnce "ctx" 10 3).result = .ok 42 ∧
    (executeWithRetry opFailOnce "ctx" 10 3).attempts = 2 ∧
    (executeWithRetry opFailOnce "ctx" 10 3).delays = [10] := by
  have h := (C7_executeWithRetry_contract opFailOnce "ctx" 10 3 (by omega)).2.1 2 42
    (by omega) (by omega)
    (fun i h1 h2 => ⟨"e1", by
      have hi : i = 1 := by omega
      subst hi
      rfl⟩) rfl
  exact ⟨h.1, h.2.1, by rw [h.2.2]; rfl⟩

/-! ## Claim C8 -/

theorem jsOr_first (x : Option String) (k t : String) (hx : x = some t) (ht : t ≠ "") :
    jsOr x k = t := by
  subst hx
  simp [jsOr, ht]

theorem jsOr_fallthrough (x : Option String) (k : String)
    (hx : x = none ∨ x = some "") : jsOr x k = k := by
  rcases hx with hx | hx <;> subst hx <;> simp [jsOr]

/-- C8: `normalizeArticle` maps source field names onto canonical fields
with first-non-empty precedence `title` over `headline`, `content` over
`description`, `url` over `link`, `publishedAt` over `date`, and when a
source omits both `publishedAt` and `date` the canonical `publishedAt`
defaults to the ingestion timestamp. -/
theorem C8_normalizeArticle_precedence :
    ∀ (raw : RawArticle) (src : Source) (now : String),
      (∀ t, raw.title = some t → t ≠ "" → (normalizeArticle raw src now).title = t)
    ∧ ((raw.title = none ∨ raw.title = some "") →
        ∀ h, raw.headline = some h → h ≠ "" → (normalizeArticle raw src now).title = h)
    ∧ ((raw.title = none ∨ raw.title = some "") →
        (raw.headline = none ∨ raw.headline = some "") →
        (normalizeArticle raw src now).title = "")
    ∧ (∀ c, raw.content = some c → c ≠ "" → (normalizeArticle raw src now).content = c)
    ∧ ((raw.content = none ∨ raw.content = some "") →
        ∀ dsc, raw.description = some dsc → dsc ≠ "" →
          (normalizeArticle raw src now).content = dsc)
    ∧ (∀ u, raw.url = some u → u ≠ "" → (normalizeArticle raw src now).url = u)
    ∧ ((raw.url = none ∨ raw.url = some "") →
        ∀ li, raw.link = some li → li ≠ "" → (normalizeArticle raw src now).url = li)
    ∧ (∀ p, raw.publishedAt = some p → p ≠ "" →
        (normalizeArticle raw src now).publishedAt = p)
    ∧ ((raw.publishedAt = none ∨ raw.publishedAt = some "") →
        ∀ d, raw.date = some d → d ≠ "" → (normalizeArticle raw src now).publishedAt = d)
    ∧ ((raw.publishedAt = none ∨ raw.publishedAt = some "") →
        (raw.date = none ∨ raw.date = some "") →
        (normalizeArticle raw src now).publishedAt = now) := by
  intro raw src now
  refine ⟨?_, ?_, ?_, ?_, ?_, ?_, ?_, ?_, ?_, ?_⟩
  · intro t h1 h2
    exact jsOr_first _ _ _ h1 h2
  · intro hx h h1 h2
    rw [show (normalizeArticle raw src now).title = jsOr raw.title (jsOr raw.headline "")
      from rfl, jsOr_fallthrough _ _ hx]
    exact jsOr_first _ _ _ h1 h2
  · intro hx hy
    rw [show (normalizeArticle raw src now).title = jsOr raw.title (jsOr raw.headline "")
      from rfl, jsOr_fallthrough _ _ hx, jsOr_fallthrough _ _ hy]
  · intro c h1 h2
    exact jsOr_first _ _ _ h1 h2
  · intro hx dsc h1 h2
    rw [show (normalizeArticle raw src now).content
        = jsOr raw.content (jsOr raw.description "") from rfl, jsOr_fallthrough _ _ hx]
    exact jsOr_first _ _ _ h1 h2
  · intro u h1 h2
    exact jsOr_first _ _ _ h1 h2
  · intro hx li h1 h2
    rw [show (normalizeArticle raw src now).url = jsOr raw.url (jsOr raw.link "")
      from rfl, jsOr_fallthrough _ _ hx]
    exact jsOr_first _ _ _ h1 h2
  · intro p h1 h2
    exact jsOr_first _ _ _ h1 h2
  · intro hx d h1 h2
    rw [show (normalizeArticle raw src now).publishedAt
        = jsOr raw.publishedAt (jsOr raw.date now) from rfl, jsOr_fallthrough _ _ hx]
    exact jsOr_first _ _ _ h1 h2
  · intro hx hy
    rw [show (normalizeArticle raw src now).publishedAt
        = jsOr raw.publishedAt (jsOr raw.date now) from rfl,
      jsOr_fallthrough _ _ hx, jsOr_fallthrough _ _ hy]

/-- Raw item exercising the headline fallback and the publishedAt default. -/
def rawHeadline : RawArticle :=
  { headline := some "Headline", content := some "", description := some "Body"
  , url := some "u" }

/-- Witness for C8: the headline, description and ingestion-time
fallbacks at a concrete raw record. -/
theorem C8_witness :
    (normalizeArticle rawHeadline srcGood "T0").title = "Headline"
    ∧ (normalizeArticle rawHeadline srcGood "T0").content = "Body"
    ∧ (normalizeArticle rawHeadline srcGood "T0").url = "u"
    ∧ (normalizeArticle rawHeadline srcGood "T0").publishedAt = "T0" := by
  have h := C8_normalizeArticle_precedence rawHeadline srcGood "T0"
  exact ⟨h.2.1 (Or.inl rfl) "Headline" rfl (by decide),
    h.2.2.2.2.1 (Or.inr rfl) "Body" rfl (by decide),
    h.2.2.2.2.2.1 "u" rfl (by decide),
    h.2.2.2.2.2.2.2.2.2 (Or.inl rfl) (Or.inl rfl)⟩

/-! ## Claim C2 -/

/-- C2: the enrichment stage is total — for any article list it returns
exactly the per-article enrichment results in order (no article is
dropped and no exception escapes, since `processArticleWithOpenAI`
catches every failure) — and when the enrichment provider throws for
every call, `enrich [a1, a2]` returns exactly the two fallback articles,
each with `processingError` set and summary equal to its truncated
original content. -/
theorem C2_enrich_total_and_fallback (ctx : Ctx) (env : Env)
    (hm : 1 ≤ ctx.maxRetries) (hb : 1 ≤ ctx.batchSize) :
    (∀ arts : List Article,
      processWithOpenAI ctx env arts = arts.map (processArticleWithOpenAI ctx env)
      ∧ (processWithOpenAI ctx env arts).length = arts.length)
  ∧ (∀ (a1 a2 : Article) (err : String → Nat → String),
      (∀ content i, 1 ≤ i → i ≤ ctx.maxRetries →
        env.genSummary content i = .error (err content i)) →
      processWithOpenAI ctx env [a1, a2]
        = [fallbackProcess ctx a1 (err a1.content ctx.maxRetries),
           fallbackProcess ctx a2 (err a2.content ctx.maxRetries)]
      ∧ ∀ a ∈ processWithOpenAI ctx env [a1, a2],
          a.processingError.isSome = true
          ∧ a.summary = some (a.content.take 200 ++ "...")) := by
  constructor
  · intro arts
    refine ⟨processWithOpenAI_eq_map ctx env arts hb, ?_⟩
    rw [processWithOpenAI_eq_map ctx env arts hb, List.length_map]
  · intro a1 a2 err hgen
    have h1 := processArticle_all_fail ctx env a1 err hm hgen
    have h2 := processArticle_all_fail ctx env a2 err hm hgen
    have heq : processWithOpenAI ctx env [a1, a2]
        = [fallbackProcess ctx a1 (err a1.content ctx.maxRetries),
           fallbackProcess ctx a2 (err a2.content ctx.maxRetries)] := by
      rw [processWithOpenAI_eq_map ctx env [a1, a2] hb]
      simp [h1, h2]
    refine ⟨heq, ?_⟩
    intro a ha
    rw [heq] at ha
    rcases List.mem_cons.mp ha with h | h
    · subst h; simp [fallbackProcess]
    · rcases List.mem_cons.mp h with h | h
      · subst h; simp [fallbackProcess]
      · cases h

/-- Witness for C2: both enrichment calls fail for two concrete
articles; the stage returns the two fallback articles. -/
theorem C2_witness :
    processWithOpenAI ctx0 envProviderDown [artFix "A1" "u1", artFix "A2" "u2"]
      = [fallbackProcess ctx0 (artFix "A1" "u1") "OpenAI down",
         fallbackProcess ctx0 (artFix "A2" "u2") "OpenAI down"] :=
  ((C2_enrich_total_and_fallback ctx0 envProviderDown (by decide) (by decide)).2
    (artFix "A1" "u1") (artFix "A2" "u2") (fun _ _ => "OpenAI down")
    (fun _ i _ _ => rfl)).1

/-! ## Claim C1 -/

theorem createBatchesGo_nil (size fuel : Nat) :
    createBatchesGo size fuel ([] : List α) = [] := by
  cases fuel <;> rfl

theorem createBatches_single (xs : List α) (size : Nat) (hne : xs ≠ [])
    (hlen : xs.length ≤ size) (hs : 1 ≤ size) : createBatches xs size = [xs] := by
  rw [createBatches, if_neg (by omega)]
  obtain ⟨x, t, hx⟩ := List.exists_cons_of_ne_nil hne
  subst hx
  rw [show createBatchesGo size (x :: t).length (x :: t)
      = List.take size (x :: t) :: createBatchesGo size t.length (List.drop size (x :: t))
    from rfl]
  rw [List.take_of_length_le hlen, List.drop_eq_nil_of_le hlen, createBatchesGo_nil]

/-- The claim as stated is false on the code: for a 3-item batch whose
batch write always throws, `saveToAirtable` attempts no individual
writes at all — its only store calls are the 3 retry attempts, each
passing the full 3-item batch — and it ends with no saved articles and
a logged failed count of 3, not `{saved: 2 articles, failedCount: 1}`. -/
theorem C1_counterexample :
    (saveToAirtable ctx0 envSaveFail
        [artFix "A1" "u1", artFix "A2" "u2", artFix "A3" "u3"]).savedArticles = []
  ∧ (saveToAirtable ctx0 envSaveFail
        [artFix "A1" "u1", artFix "A2" "u2", artFix "A3" "u3"]).loggedFailedCount = 3
  ∧ (saveToAirtable ctx0 envSaveFail
        [artFix "A1" "u1", artFix "A2" "u2", artFix "A3" "u3"]).storeBatchCalls
      = [([artFix "A1" "u1", artFix "A2" "u2", artFix "A3" "u3"], 3)]
  ∧ ¬((saveToAirtable ctx0 envSaveFail
        [artFix "A1" "u1", artFix "A2" "u2", artFix "A3" "u3"]).savedArticles.length = 2
      ∧ (saveToAirtable ctx0 envSaveFail
        [artFix "A1" "u1", artFix "A2" "u2", artFix "A3" "u3"]).loggedFailedCount = 1) := by
  decide

/-- C1 (amended): `saveToAirtable` never falls back to per-record
writes.  A batch whose write still fails after the retries contributes
nothing to the saved articles, is recorded as `maxRetries` store calls
each passing the entire batch, and does not abort the remaining batches;
when all the articles are valid, form a single batch (at most 10), and
the store throws on every attempt, the stage returns no saved articles
and logs a failed count equal to the full batch size. -/
theorem C1_saveToAirtable_no_fallback (ctx : Ctx) (env : Env) (hm : 1 ≤ ctx.maxRetries) :
    (∀ (i : Nat) (b : List Article) (bs : List (List Article)) (err : Nat → String),
      (∀ att, 1 ≤ att → att ≤ ctx.maxRetries →
        env.createArticles b att = .error (err att)) →
      saveBatchesLoop ctx env i (b :: bs)
        = ((saveBatchesLoop ctx env (i + 1) bs).1,
           (b, ctx.maxRetries) :: (saveBatchesLoop ctx env (i + 1) bs).2))
  ∧ (∀ (arts : List Article) (err : Nat → String),
      (∀ a ∈ arts, (env.validate a).toOption.isSome = true) →
      arts ≠ [] → arts.length ≤ 10 →
      (∀ att, 1 ≤ att → att ≤ ctx.maxRetries →
        env.createArticles arts att = .error (err att)) →
      saveToAirtable ctx env arts
        = { savedArticles := []
          , invalidCount := 0
          , storeBatchCalls := [(arts, ctx.maxRetries)]
          , loggedFailedCount := (arts.length : Int) }) := by
  constructor
  · intro i b bs err hfail
    exact saveBatchesLoop_fail_head ctx env i b bs err hm hfail
  · intro arts err hvalid hne hlen hfail
    have hfilter : arts.filter (fun a => (env.validate a).toOption.isSome) = arts :=
      List.filter_eq_self.mpr hvalid
    have hinv : arts.filter (fun a => !(env.validate a).toOption.isSome) = [] := by
      rw [List.filter_eq_nil_iff]
      intro a ha
      simp [hvalid a ha]
    have hbatch : createBatches arts 10 = [arts] :=
      createBatches_single arts 10 hne hlen (by omega)
    have hloop : saveBatchesLoop ctx env 1 [arts]
        = ((saveBatchesLoop ctx env 2 []).1,
           (arts, ctx.maxRetries) :: (saveBatchesLoop ctx env 2 []).2) :=
      saveBatchesLoop_fail_head ctx env 1 arts [] err hm hfail
    rw [saveToAirtable]
    simp only [hfilter, hinv, hbatch, hloop]
    rw [show saveBatchesLoop ctx env 2 ([] : List (List Article)) = ([], []) from rfl]
    simp

/-- Witness for C1 (amended): the 3-item scenario from the claim, with a
store whose batch write always throws. -/
theorem C1_witness :
    saveToAirtable ctx0 envSaveFail [artFix "A1" "u1", artFix "A2" "u2", artFix "A3" "u3"]
      = { savedArticles := []
        , invalidCount := 0
        , storeBatchCalls := [([artFix "A1" "u1", artFix "A2" "u2", artFix "A3" "u3"], 3)]
        , loggedFailedCount := 3 } :=
  (C1_saveToAirtable_no_fallback ctx0 envSaveFail (by decide)).2
    [artFix "A1" "u1", artFix "A2" "u2", artFix "A3" "u3"]
    (fun _ => "batch failed")
    (fun a _ => rfl) (by decide) (by decide) (fun att _ _ => rfl)

/-! ## Helper lemmas: pipeline unfolding -/

theorem executeFullPipeline_error (ctx : Ctx) (env : Env) (sources : List Source)
    (e : String) (h : (scrapeArticles ctx env sources).1 = .error e) :
    executeFullPipeline ctx env sources
      = { result := .error e
        , scrapeAttempted := (scrapeArticles ctx env sources).2
        , enrichRan := false, persistRan := false, alertSent := some e } := by
  unfold executeFullPipeline
  rw [h]

theorem executeFullPipeline_empty (ctx : Ctx) (env : Env) (sources : List Source)
    (h : (scrapeArticles ctx env sources).1 = .ok []) :
    executeFullPipeline ctx env sources
      = { result := .ok { success := true, articles := []
                        , message := some "No new articles found" }
        , scrapeAttempted := (scrapeArticles ctx env sources).2
        , enrichRan := false, persistRan := false, alertSent := none } := by
  unfold executeFullPipeline
  rw [h]
  rfl

theorem executeFullPipeline_success (ctx : Ctx) (env : Env) (sources : List Source)
    (arts : List Article) (h : (scrapeArticles ctx env sources).1 = .ok arts)
    (hne : arts.length ≠ 0) :
    executeFullPipeline ctx env sources
      = { result := .ok
            { success := true
            , articles := (saveToAirtable ctx env (processWithOpenAI ctx env arts)).savedArticles
            , stats := some
                { scraped := arts.length
                , processed := (processWithOpenAI ctx env arts).length
                , saved := (saveToAirtable ctx env
                    (processWithOpenAI ctx env arts)).savedArticles.length
                , duration := 0 } }
        , scrapeAttempted := (scrapeArticles ctx env sources).2
        , enrichRan := true, persistRan := true, alertSent := none } := by
  unfold executeFullPipeline
  rw [h]
  simp only [if_neg hne]

/-! ## Claim C5 -/

/-- C5: when one source's scrape still fails after every configured
retry attempt, the whole run fails — the pipeline re-raises that last
error to its caller, sends the failure alert with it, never reaches the
enrichment or persistence stage, and does not attempt the sources after
the failing one. -/
theorem C5_scrape_failure_is_fatal (ctx : Ctx) (env : Env) (hm : 1 ≤ ctx.maxRetries)
    (pre : List Source) (s : Source) (post : List Source) (errAtt : Nat → String)
    (hpre : ∀ s' ∈ pre, ∃ arts, (executeWithRetry (scrapeFromSource ctx env s')
        ("Scraping " ++ s'.name) ctx.retryDelay ctx.maxRetries).result = .ok arts)
    (hfail : ∀ att, 1 ≤ att → att ≤ ctx.maxRetries →
      env.scrape s att = .error (errAtt att)) :
    (executeFullPipeline ctx env (pre ++ s :: post)).result
        = .error (errAtt ctx.maxRetries)
    ∧ (executeFullPipeline ctx env (pre ++ s :: post)).alertSent
        = some (errAtt ctx.maxRetries)
    ∧ (executeFullPipeline ctx env (pre ++ s :: post)).enrichRan = false
    ∧ (executeFullPipeline ctx env (pre ++ s :: post)).persistRan = false
    ∧ (executeFullPipeline ctx env (pre ++ s :: post)).scrapeAttempted
        = pre.map (·.name) ++ [s.name] := by
  have hsrc : ∀ att, 1 ≤ att → att ≤ ctx.maxRetries →
      scrapeFromSource ctx env s att = .error (errAtt att) := by
    intro att h1 h2
    rw [scrapeFromSource, hfail att h1 h2]
    rfl
  have hr := executeWithRetry_all_fail (scrapeFromSource ctx env s)
    ("Scraping " ++ s.name) ctx.retryDelay ctx.maxRetries errAtt hm hsrc
  have hl := scrapeLoop_fail ctx env pre s post (errAtt ctx.maxRetries) hpre hr.1
  have hsc1 : (scrapeArticles ctx env (pre ++ s :: post)).1
      = .error (errAtt ctx.maxRetries) := by
    rw [scrapeArticles, hl]
    rfl
  have hsc2 : (scrapeArticles ctx env (pre ++ s :: post)).2
      = pre.map (·.name) ++ [s.name] := by
    rw [scrapeArticles, hl]
  have hp := executeFullPipeline_error ctx env (pre ++ s :: post)
    (errAtt ctx.maxRetries) hsc1
  rw [hp]
  exact ⟨rfl, rfl, rfl, rfl, hsc2⟩

/-- Witness for C5: the second of three sources fails all attempts; the
run surfaces its attempt-3 error, alerts, and never reaches the third
source. -/
theorem C5_witness :
    (executeFullPipeline ctx0 envScrapeFail [srcGood, srcBad, srcGood]).result
        = .error "scrape failed 3"
    ∧ (executeFullPipeline ctx0 envScrapeFail [srcGood, srcBad, srcGood]).alertSent
        = some "scrape failed 3"
    ∧ (executeFullPipeline ctx0 envScrapeFail [srcGood, srcBad, srcGood]).enrichRan = false
    ∧ (executeFullPipeline ctx0 envScrapeFail [srcGood, srcBad, srcGood]).persistRan = false
    ∧ (executeFullPipeline ctx0 envScrapeFail [srcGood, srcBad, srcGood]).scrapeAttempted
        = ["good", "bad"] := by
  have h := C5_scrape_failure_is_fatal ctx0 envScrapeFail (by decide)
    [srcGood] srcBad [srcGood] (fun att => "scrape failed " ++ toString att)
    (by
      intro s' hs'
      rcases List.mem_cons.mp hs' with h | h
      · subst h
        exact ⟨[], rfl⟩
      · cases h)
    (fun att _ _ => rfl)
  exact h

/-! ## Claim C10 -/

/-- C10: when scraping plus deduplication yields no articles, the
pipeline returns early with `{success: true, articles: [],
message: "No new articles found"}` and no stats field, and neither
enrichment, nor persistence, nor the failure alert is invoked. -/
theorem C10_empty_scrape_early_return (ctx : Ctx) (env : Env) (sources : List Source)
    (h : (scrapeArticles ctx env sources).1 = .ok []) :
    executeFullPipeline ctx env sources
      = { result := .ok { success := true, articles := []
                        , message := some "No new articles found", stats := none }
        , scrapeAttempted := (scrapeArticles ctx env sources).2
        , enrichRan := false, persistRan := false, alertSent := none } :=
  executeFullPipeline_empty ctx env sources h

/-- Witness for C10: a source that scrapes an empty dataset. -/
theorem C10_witness :
    executeFullPipeline ctx0 envEmpty [srcGood]
      = { result := .ok { success := true, articles := []
                        , message := some "No new articles found", stats := none }
        , scrapeAttempted := ["good"]
        , enrichRan := false, persistRan := false, alertSent := none } := by
  rw [C10_empty_scrape_early_return ctx0 envEmpty [srcGood] (by decide)]
  rfl

/-! ## Claim C6 -/

/-- The claim as stated is false on the code: a run whose scrape yields
no articles completes without throwing yet returns the early no-articles
object, which carries no stats field. -/
theorem C6_counterexample :
    (executeFullPipeline ctx0 envEmpty [srcGood]).result
      = .ok { success := true, articles := []
            , message := some "No new articles found", stats := none }
  ∧ ({ success := true, articles := ([] : List Article)
     , message := some "No new articles found"
     , stats := none } : PipelineReturn).stats = none := by
  decide

/-- C6 (amended): whenever a pipeline run completes without throwing
and at least one article survived scrape plus dedupe,
`executeFullPipeline` resolves with stats
`{scraped, processed, saved, duration}` tied to the stage outputs; and
whenever it completes without throwing (articles or not), the scheduler
run that called it invalidates the articles, analytics, categories and
sources read caches. -/
theorem C6_stats_and_cache_invalidation (ctx : Ctx) (env : Env) (sources : List Source) :
    (∀ arts : List Article, (scrapeArticles ctx env sources).1 = .ok arts →
      arts.length ≠ 0 →
      (executeFullPipeline ctx env sources).result
        = .ok { success := true
              , articles := (saveToAirtable ctx env
                  (processWithOpenAI ctx env arts)).savedArticles
              , stats := some
                  { scraped := arts.length
                  , processed := (processWithOpenAI ctx env arts).length
                  , saved := (saveToAirtable ctx env
                      (processWithOpenAI ctx env arts)).savedArticles.length
                  , duration := 0 } })
  ∧ (∀ r : PipelineReturn, (executeFullPipeline ctx env sources).result = .ok r →
      (runDailyScrape ctx env sources).invalidated
        = ["articles:*", "analytics:*", "categories:*", "sources:*"]) := by
  constructor
  · intro arts h hne
    rw [executeFullPipeline_success ctx env sources arts h hne]
  · intro r h
    unfold runDailyScrape
    simp only [h]

/-- Witness for C6 (amended): one article flows through the whole
pipeline; the run resolves with the populated stats object. -/
theorem C6_witness :
    (executeFullPipeline ctx0 envOne [srcGood]).result
      = .ok { success := true
            , articles := (saveToAirtable ctx0 envOne
                (processWithOpenAI ctx0 envOne
                  [normalizeArticle rawItemB srcGood "T0"])).savedArticles
            , stats := some
                { scraped := 1
                , processed := (processWithOpenAI ctx0 envOne
                    [normalizeArticle rawItemB srcGood "T0"]).length
                , saved := (saveToAirtable ctx0 envOne
                    (processWithOpenAI ctx0 envOne
                      [normalizeArticle rawItemB srcGood "T0"])).savedArticles.length
                , duration := 0 } } :=
  (C6_stats_and_cache_invalidation ctx0 envOne [srcGood]).1
    [normalizeArticle rawItemB srcGood "T0"] (by decide) (by decide)

/-! ## Claim C9 -/

/-- The claim as stated is false on the code: the tokens of
`"abcd 2024"` are seen in the order `abcd` then `2024` (both with
frequency 1), so first-seen tie-breaking demands `["abcd", "2024"]`;
but `Object.entries` lists the array-index-like key `"2024"` before the
insertion-ordered string keys, and the stable sort keeps that order, so
`extractKeywords` returns `["2024", "abcd"]`. -/
theorem C9_counterexample :
    tokensOf (rawText rawNum) = ["abcd", "2024"]
  ∧ extractKeywords rawNum = ["2024", "abcd"]
  ∧ extractKeywords rawNum ≠ ["abcd", "2024"] := by
  decide

/-- C9 (amended): `extractKeywords` lowercases the concatenated title
and content, tokenises into word runs of length at least 4, counts
frequencies, and returns at most 10 token names ordered by
non-increasing frequency, every excluded frequency-table entry counting
no more than every included one; equal-frequency ties follow the
frequency-table entry order — tokens that are canonical decimal
integers below `2^32 - 1` come first (in ascending numeric order),
the remaining tokens in first-seen order — as the two concrete
evaluations show. -/
theorem C9_extractKeywords_contract :
    (∀ raw : RawArticle, (extractKeywords raw).length ≤ 10)
  ∧ (∀ raw : RawArticle, List.Pairwise
      (fun x y => countOf y (tokensOf (rawText raw)) ≤ countOf x (tokensOf (rawText raw)))
      (extractKeywords raw))
  ∧ (∀ raw : RawArticle, ∀ k ∈ extractKeywords raw,
      k ∈ keysOf (freqOf (tokensOf (rawText raw))))
  ∧ (∀ raw : RawArticle,
      ∀ p ∈ (sortByCountDesc (entriesOrder (freqOf (tokensOf (rawText raw))))).take 10,
      ∀ q ∈ (sortByCountDesc (entriesOrder (freqOf (tokensOf (rawText raw))))).drop 10,
        q.2 ≤ p.2)
  ∧ extractKeywords rawNum = ["2024", "abcd"]
  ∧ extractKeywords rawTie = ["bbbb", "aaaa"] := by
  have hval : ∀ raw : RawArticle,
      ∀ p ∈ (sortByCountDesc (entriesOrder (freqOf (tokensOf (rawText raw))))).take 10,
        p.2 = countOf p.1 (tokensOf (rawText raw)) := by
    intro raw p hp
    have h1 : p ∈ sortByCountDesc (entriesOrder (freqOf (tokensOf (rawText raw)))) :=
      (List.take_sublist 10 _).subset hp
    have h2 : p ∈ entriesOrder (freqOf (tokensOf (rawText raw))) :=
      mem_sortByCountDesc _ p h1
    have h3 : p ∈ freqOf (tokensOf (rawText raw)) := mem_entriesOrder _ p h2
    exact freq_entry_count _ p h3
  refine ⟨?_, ?_, ?_, ?_, by decide, by decide⟩
  · intro raw
    rw [extractKeywords, List.length_map, List.length_take]
    exact min_le_left _ _
  · intro raw
    have hsor := sortByCountDesc_sorted (entriesOrder (freqOf (tokensOf (rawText raw))))
    have htake : List.Pairwise (fun p q : String × Nat => q.2 ≤ p.2)
        ((sortByCountDesc (entriesOrder (freqOf (tokensOf (rawText raw))))).take 10) :=
      List.Pairwise.sublist (List.take_sublist 10 _) hsor
    rw [extractKeywords, List.pairwise_map]
    refine htake.imp_of_mem ?_
    intro p q hp hq hle
    rw [hval raw p hp, hval raw q hq] at hle
    exact hle
  · intro raw k hk
    rw [extractKeywords] at hk
    obtain ⟨p, hp, hpk⟩ := List.mem_map.mp hk
    have h1 : p ∈ sortByCountDesc (entriesOrder (freqOf (tokensOf (rawText raw)))) :=
      (List.take_sublist 10 _).subset hp
    have h2 : p ∈ freqOf (tokensOf (rawText raw)) :=
      mem_entriesOrder _ p (mem_sortByCountDesc _ p h1)
    exact hpk ▸ List.mem_map_of_mem _ h2
  · intro raw
    exact pairwise_take_drop
      (sortByCountDesc_sorted (entriesOrder (freqOf (tokensOf (rawText raw))))) 10

/-- Witness for C9 (amended): the numeric token returned first for
`rawNum` is indeed a key of the frequency table. -/
theorem C9_witness :
    "2024" ∈ keysOf (freqOf (tokensOf (rawText rawNum))) :=
  C9_extractKeywords_contract.2.2.1 rawNum "2024" (by decide)
